import Mathlib

/-!
# GoChatGo — verification of the conversation orchestration engine

Shallow embedding of `go-chat.go` (package main) in Lean 4, together with
theorems settling the specification claims about the Context Assembler
(`truncateChatHistory`), the history source (`getChatHistory` /
`getLastTwoDaysLogFiles`), the fusion pipeline in `sendChat`, the
completion client (`queryGPT`), and the config/state helpers
(`updateConfig`, `getState`).

Modelling conventions:
* a Go `map[string]string` chat message is the structure `Msg` with the two
  keys actually used, `role` and `content`;
* `time.Time` values are carried as their RFC3339 strings (the code never
  computes with timestamps on the paths verified here); the zero value of
  `time.Time` marshals as `"0001-01-01T00:00:00Z"`;
* `log.Fatalf` terminates the process; a computation that may call it is
  modelled in `Except Unit`, with `.error ()` standing for the fatal exit;
* the file system is a map from a calendar-day index (`Int`, one unit per
  day, so day `d - 1` is the day before day `d`) to the optional raw
  contents of that day's log file (`none` = file does not exist, which Go
  reports as `os.IsNotExist`);
* `encoding/json` parsing is embedded by an executable JSON parser and
  per-type decoders mirroring `json.Unmarshal` / `json.Decoder.Decode`.
-/

/-- A chat message as built throughout `go-chat.go`: a `map[string]string`
with keys `role` and `content`. -/
structure Msg where
  role : String
  content : String
deriving DecidableEq, Repr

/-- Go's `strings.Split(s, " ")` on the character list of `s`: the fields
between single-space separators, in order.  `Split("", " ")` is `[""]`, so
the result is always non-empty. -/
def goSplitSpace : List Char → List (List Char)
  | [] => [[]]
  | c :: rest =>
    if c = ' ' then [] :: goSplitSpace rest
    else
      match goSplitSpace rest with
      | f :: fs => (c :: f) :: fs
      | [] => [[c]]

/-- Token estimate of one message, from `truncateChatHistory`:
`len(strings.Split(chatHistory[i]["content"], " "))`.  Since
`strings.Split` never returns an empty slice, every message costs at least
one token. -/
def msgTokens (m : Msg) : Int :=
  ((goSplitSpace m.content.toList).length : Int)

/-- Cumulative per-message cost of a history. -/
def histCost (l : List Msg) : Int :=
  (l.map msgTokens).sum

/-- Loop body of `truncateChatHistory` (go-chat.go:515-522): walk the
history from the newest message backwards, prepending each message whose
cost still fits, and stop at the first message that would push the total
over `maxTokens`.  `rev` is the not-yet-visited part of the history, newest
first; `total` and `acc` are the Go locals `totalTokens` and
`truncatedHistory`. -/
def truncGo (maxTokens : Int) : List Msg → Int → List Msg → List Msg
  | [], _, acc => acc
  | m :: rest, total, acc =>
    let messageTokens := msgTokens m
    if total + messageTokens > maxTokens then acc
    else truncGo maxTokens rest (total + messageTokens) (m :: acc)

/-- `truncateChatHistory` (go-chat.go:511-525). -/
def truncateChatHistory (chatHistory : List Msg) (maxTokens : Int) : List Msg :=
  truncGo maxTokens chatHistory.reverse 0 []

/-! ## JSON (`encoding/json`)

An executable JSON parser standing for Go's `encoding/json`.  Values keep
the shape `json.Unmarshal` produces for the types used in `go-chat.go`;
numeric literals are kept as raw text because no verified path inspects a
numeric value.  Characters that the token rules of this development cannot
spell literally are built with `Char.ofNat`. -/

inductive Json where
  | null
  | boolean (b : Bool)
  | num (raw : String)
  | str (s : String)
  | arr (items : List Json)
  | obj (fields : List (String × Json))

def jQuote : Char := Char.ofNat 34
def jBackslash : Char := Char.ofNat 92
def jLBrace : Char := Char.ofNat 123
def jRBrace : Char := Char.ofNat 125
def jLBrack : Char := Char.ofNat 91
def jRBrack : Char := Char.ofNat 93

def isJsonWs (c : Char) : Bool :=
  c == ' ' || c == '\n' || c == '\t' || c == '\r'

def skipWs : List Char → List Char
  | [] => []
  | c :: cs => if isJsonWs c then skipWs cs else c :: cs

def hexVal (c : Char) : Option Nat :=
  if c.isDigit then some (c.toNat - 48)
  else if 'a' ≤ c && c ≤ 'f' then some (c.toNat - 87)
  else if 'A' ≤ c && c ≤ 'F' then some (c.toNat - 55)
  else none

def escChar (e : Char) : Option Char :=
  if e == jQuote then some jQuote
  else if e == jBackslash then some jBackslash
  else if e == '/' then some '/'
  else if e == 'b' then some (Char.ofNat 8)
  else if e == 'f' then some (Char.ofNat 12)
  else if e == 'n' then some '\n'
  else if e == 'r' then some '\r'
  else if e == 't' then some '\t'
  else none

/-- Body of a JSON string literal, after the opening quote: the decoded
characters and the rest of the input after the closing quote. -/
def parseStrChars : List Char → Option (List Char × List Char)
  | [] => none
  | c :: cs =>
    if c == jQuote then some ([], cs)
    else if c == jBackslash then
      match cs with
      | [] => none
      | e :: cs2 =>
        if e == 'u' then
          match cs2 with
          | h1 :: h2 :: h3 :: h4 :: cs3 =>
            match hexVal h1, hexVal h2, hexVal h3, hexVal h4 with
            | some a, some b, some c2, some d =>
              (parseStrChars cs3).map
                (fun p => (Char.ofNat (((a * 16 + b) * 16 + c2) * 16 + d) :: p.1, p.2))
            | _, _, _, _ => none
          | _ => none
        else
          match escChar e with
          | none => none
          | some ch => (parseStrChars cs2).map (fun p => (ch :: p.1, p.2))
    else (parseStrChars cs).map (fun p => (c :: p.1, p.2))

def isNumChar (c : Char) : Bool :=
  c.isDigit || c == '-' || c == '+' || c == '.' || c == 'e' || c == 'E'

mutual

/-- One JSON value (fuel-bounded recursive-descent): the value and the
unconsumed rest of the input. -/
def parseVal : Nat → List Char → Option (Json × List Char)
  | 0, _ => none
  | fuel + 1, cs =>
    match skipWs cs with
    | [] => none
    | c :: rest =>
      if c == 'n' then
        match rest with
        | 'u' :: 'l' :: 'l' :: r => some (.null, r)
        | _ => none
      else if c == 't' then
        match rest with
        | 'r' :: 'u' :: 'e' :: r => some (.boolean true, r)
        | _ => none
      else if c == 'f' then
        match rest with
        | 'a' :: 'l' :: 's' :: 'e' :: r => some (.boolean false, r)
        | _ => none
      else if c == jQuote then
        (parseStrChars rest).map (fun p => (.str (String.mk p.1), p.2))
      else if c == jLBrack then
        match skipWs rest with
        | [] => none
        | c2 :: r2 =>
          if c2 == jRBrack then some (.arr [], r2)
          else parseArrItems fuel (c2 :: r2) []
      else if c == jLBrace then
        match skipWs rest with
        | [] => none
        | c2 :: r2 =>
          if c2 == jRBrace then some (.obj [], r2)
          else parseObjItems fuel (c2 :: r2) []
      else if c == '-' || c.isDigit then
        some (.num (String.mk ((c :: rest).takeWhile isNumChar)),
          (c :: rest).dropWhile isNumChar)
      else none

/-- Items of a JSON array after the opening bracket (accumulator holds the
items parsed so far, in reverse). -/
def parseArrItems : Nat → List Char → List Json → Option (Json × List Char)
  | 0, _, _ => none
  | fuel + 1, cs, acc =>
    match parseVal fuel cs with
    | none => none
    | some (v, r) =>
      match skipWs r with
      | [] => none
      | c :: r2 =>
        if c == jRBrack then some (.arr (v :: acc).reverse, r2)
        else if c == ',' then parseArrItems fuel r2 (v :: acc)
        else none

/-- Members of a JSON object after the opening brace (accumulator holds the
fields parsed so far, in reverse). -/
def parseObjItems : Nat → List Char → List (String × Json) → Option (Json × List Char)
  | 0, _, _ => none
  | fuel + 1, cs, acc =>
    match skipWs cs with
    | [] => none
    | c :: rest =>
      if c == jQuote then
        match parseStrChars rest with
        | none => none
        | some (key, r) =>
          match skipWs r with
          | [] => none
          | c2 :: r2 =>
            if c2 == ':' then
              match parseVal fuel r2 with
              | none => none
              | some (v, r3) =>
                match skipWs r3 with
                | [] => none
                | c3 :: r4 =>
                  if c3 == jRBrace then some (.obj ((String.mk key, v) :: acc).reverse, r4)
                  else if c3 == ',' then parseObjItems fuel r4 ((String.mk key, v) :: acc)
                  else none
            else none
      else none

end

/-- `json.Unmarshal`: the input must be exactly one JSON value followed by
nothing but whitespace. -/
def jsonUnmarshal (s : String) : Option Json :=
  match parseVal (2 * s.length + 4) s.toList with
  | some (v, rest) => if (skipWs rest).isEmpty then some v else none
  | none => none

/-- `json.Decoder.Decode`: reads the first JSON value off the stream and
leaves any trailing bytes unread. -/
def jsonDecodeFirst (s : String) : Option Json :=
  (parseVal (2 * s.length + 4) s.toList).map (·.1)

/-- Effective value of an object key under Go's duplicate-key semantics
(a later occurrence overwrites an earlier one). -/
def objGet (fields : List (String × Json)) (key : String) : Option Json :=
  match fields with
  | [] => none
  | (k, v) :: rest =>
    match objGet rest key with
    | some v2 => some v2
    | none => if k == key then some v else none

/-! ## Persisted records (`ChatLog`, `State`, `Config`) -/

/-- The `time.Time` zero value, as it marshals to JSON (RFC3339).  On the
verified paths timestamps are only carried around, never computed with, so
they are embedded as their JSON strings. -/
def timeZero : String := "0001-01-01T00:00:00Z"

/-- `ChatLog` (go-chat.go:37-41). -/
structure ChatLog where
  timestamp : String
  request : String
  response : String
deriving DecidableEq, Repr

/-- `State` (go-chat.go:43-46). -/
structure State where
  LastInteraction : String
  CheckInEnabled : Bool
deriving DecidableEq, Repr

/-- `Config` (go-chat.go:48-53). -/
structure Config where
  UserName : String
  AIName : String
  Bio : String
  Personality : String
deriving DecidableEq, Repr

/-- `json.Unmarshal` of a JSON member into a `string`-like struct field:
absent or `null` leaves the zero value, a string overwrites it, anything
else is an unmarshal error.  (For `time.Time` fields Go additionally
validates the RFC3339 format; no verified path depends on that check.) -/
def decodeStringField (fields : List (String × Json)) (key : String)
    (dflt : String) : Option String :=
  match objGet fields key with
  | none => some dflt
  | some .null => some dflt
  | some (.str s) => some s
  | some _ => none

/-- `json.Unmarshal` of a JSON member into a `bool` struct field. -/
def decodeBoolField (fields : List (String × Json)) (key : String)
    (dflt : Bool) : Option Bool :=
  match objGet fields key with
  | none => some dflt
  | some .null => some dflt
  | some (.boolean b) => some b
  | some _ => none

def decodeChatLog : Json → Option ChatLog
  | .null => some ⟨timeZero, "", ""⟩
  | .obj fields => do
    let ts ← decodeStringField fields "timestamp" timeZero
    let rq ← decodeStringField fields "request" ""
    let rs ← decodeStringField fields "response" ""
    some ⟨ts, rq, rs⟩
  | _ => none

def decodeChatLogs : Json → Option (List ChatLog)
  | .null => some []
  | .arr xs => xs.mapM decodeChatLog
  | _ => none

/-- `json.Unmarshal(data, &logs)` for `[]ChatLog`. -/
def parseChatLogs (s : String) : Option (List ChatLog) :=
  (jsonUnmarshal s).bind decodeChatLogs

def decodeState : Json → Option State
  | .null => some ⟨timeZero, false⟩
  | .obj fields => do
    let li ← decodeStringField fields "last_interaction" timeZero
    let ce ← decodeBoolField fields "check_in_enabled" false
    some ⟨li, ce⟩
  | _ => none

/-- `json.Unmarshal(data, &state)` for `State`. -/
def parseState (s : String) : Option State :=
  (jsonUnmarshal s).bind decodeState

/-! ## Log files and history (`getLogFilePath`, `getLastTwoDaysLogFiles`,
`getChatHistory`, `getState`, `updateConfig`)

Calendar days are embedded as `Int` day indices (one unit per day); the log
directory is a function from day index to the optional raw contents of that
day's `go-chat-log-<date>.json` file, `none` meaning the file does not
exist (which Go reports as `os.IsNotExist`). -/

/-- `getLogFilePath` (go-chat.go:724-727): the current day's log file. -/
def getLogFilePath (today : Int) : Int := today

/-- `getLastTwoDaysLogFiles` (go-chat.go:729-736): the log files of the
current day and of the day before, in that order
(`time.Now().AddDate(0, 0, -i)` for `i = 0, 1`). -/
def getLastTwoDaysLogFiles (today : Int) : List Int :=
  [today, today - 1]

/-- Reading and unmarshalling one log file, as done in the loop of
`getChatHistory` (go-chat.go:547-561) and again in `sendChat`
(go-chat.go:423-434): a missing file (`os.IsNotExist`) and an empty file
contribute no entries; an unparsable non-empty file is `log.Fatalf`. -/
def readLogsFile (fs : Int → Option String) (d : Int) : Except Unit (List ChatLog) :=
  match fs d with
  | none => Except.ok []
  | some data =>
    if data = "" then Except.ok []
    else
      match parseChatLogs data with
      | none => Except.error ()
      | some fileLogs => Except.ok fileLogs

/-- The accumulation loop of `getChatHistory` over its list of log files,
in order. -/
def readLogsFiles (fs : Int → Option String) : List Int → Except Unit (List ChatLog)
  | [] => Except.ok []
  | d :: rest => do
    let fileLogs ← readLogsFile fs d
    let logs ← readLogsFiles fs rest
    Except.ok (fileLogs ++ logs)

/-- The conversion loop at the end of `getChatHistory` (go-chat.go:563-573):
each `ChatLog` becomes a user message holding the request followed by an
assistant message holding the response. -/
def toChatHistory : List ChatLog → List Msg
  | [] => []
  | lg :: rest => ⟨"user", lg.request⟩ :: ⟨"assistant", lg.response⟩ :: toChatHistory rest

/-- `getChatHistory` (go-chat.go:543-576). -/
def getChatHistoryE (today : Int) (fs : Int → Option String) : Except Unit (List Msg) := do
  let logs ← readLogsFiles fs (getLastTwoDaysLogFiles today)
  Except.ok (toChatHistory logs)

/-- `getState` (go-chat.go:781-797).  The result pairs the returned `State`
with the `State` persisted by `saveState` during the call (`none` when
nothing is written); `.error ()` is `log.Fatalf`. -/
def getStateRun (file : Option String) : Except Unit (State × Option State) :=
  match file with
  | none => Except.ok (⟨timeZero, true⟩, some ⟨timeZero, true⟩)
  | some data =>
    match parseState data with
    | none => Except.error ()
    | some st => Except.ok (st, none)

/-- The field updates of `updateConfig` (go-chat.go:810-823) applied to the
prior `Config` read from the config file; the result is what `saveConfig`
persists. -/
def updateConfigPure (config : Config) (userName aiName bio : String) : Config :=
  let config := if userName ≠ "" then { config with UserName := userName } else config
  let config := if aiName ≠ "" then { config with AIName := aiName } else config
  let config := if bio ≠ "" then { config with Bio := bio } else config
  config

/-! ## Completion client and the fusion pipeline (`queryGPT`, `sendChat`) -/

/-- One request to the completion endpoint as `queryGPT` issues it: the
non-constant fields of the request body (`temperature`, `max_tokens`,
`messages`; `model`, `top_p`, the penalty fields and `n` are fixed
constants).  Go passes the numeric parameters as `float64`; they are only
ever carried, never computed with, so they are embedded as rationals. -/
structure GPTRequest where
  temperature : ℚ
  maxTokens : ℚ
  messages : List Msg
deriving DecidableEq

/-- The request `queryGPT` (go-chat.go:451-463) builds: the caller's
history with the instruction prompt appended as a final system message. -/
def queryGPTReq (prompt : String) (temperature maxTokens : ℚ)
    (chatHistory : List Msg) : GPTRequest :=
  ⟨temperature, maxTokens, chatHistory ++ [⟨"system", prompt⟩]⟩

/-- The remote completion endpoint: a response text per request, or a
failure (connection error, non-OK status, undecodable body — each of which
`queryGPT` turns into `log.Fatalf`). -/
def Oracle : Type := GPTRequest → Except Unit String

/-- The summarizer call of `sendChat` (go-chat.go:377,381), over the
truncated history plus the new user prompt. -/
def summarizeReq (chatHistory : List Msg) : GPTRequest :=
  queryGPTReq "Summarize this conversation and determine its mood" 0.4 72 chatHistory

/-- The logical ("left brain") call of `sendChat` (go-chat.go:373,383-388):
its only context is one system message holding the summarizer's digest. -/
def leftBrainReq (digest : String) : GPTRequest :=
  queryGPTReq "Answer the prompt logically" 0.2 512
    [⟨"system", "Summary of chat so far: " ++ digest⟩]

/-- The creative ("right brain") call of `sendChat` (go-chat.go:375,390-395). -/
def rightBrainReq (digest : String) : GPTRequest :=
  queryGPTReq "Answer the prompt creatively" 1.0 512
    [⟨"system", "Summary of chat so far: " ++ digest⟩]

/-- The synthesizer ("executive") call of `sendChat` (go-chat.go:379,397-411):
digest, left answer and right answer in three separate system messages with
three distinct labels, and the combine instruction concatenated with the
raw user prompt as the final instruction. -/
def execReq (prompt digest leftBrainResponse rightBrainResponse : String) : GPTRequest :=
  queryGPTReq
    ("Take both of these answers and combine them into an answer that is both logical and creative"
      ++ prompt)
    0.6 1024
    [⟨"system", "Summary of chat so far: " ++ digest⟩,
     ⟨"system", "This is what you left brain says: \n" ++ leftBrainResponse⟩,
     ⟨"system", "This is what your right brain says: \n" ++ rightBrainResponse ++ ""⟩]

/-- Outcome of one `sendChat` turn: `fatal` is `log.Fatalf` (the process
exits, the log file untouched); `written logs response` is a completed turn
that persisted `logs` as the new contents of today's log file. -/
inductive TurnResult where
  | fatal
  | written (newLogs : List ChatLog) (response : String)
deriving DecidableEq

/-- `sendChat` (go-chat.go:357-449): gather and truncate the history,
append the user prompt, run the four pipeline stages in order, then re-read
today's log file and append the turn.  `now` is the turn's timestamp
(`time.Now()`).  The follow-up `updateSummary`/`updateState` writes happen
after the log write and are outside this model. -/
def sendChatRun (oracle : Oracle) (fs : Int → Option String) (today : Int)
    (prompt now : String) : TurnResult :=
  match getChatHistoryE today fs with
  | Except.error _ => .fatal
  | Except.ok hist0 =>
    let chatHistory := truncateChatHistory hist0 1000 ++ [⟨"user", prompt⟩]
    match oracle (summarizeReq chatHistory) with
    | Except.error _ => .fatal
    | Except.ok digest =>
      match oracle (leftBrainReq digest) with
      | Except.error _ => .fatal
      | Except.ok leftBrainResponse =>
        match oracle (rightBrainReq digest) with
        | Except.error _ => .fatal
        | Except.ok rightBrainResponse =>
          match oracle (execReq prompt digest leftBrainResponse rightBrainResponse) with
          | Except.error _ => .fatal
          | Except.ok execResponse =>
            match readLogsFile fs (getLogFilePath today) with
            | Except.error _ => .fatal
            | Except.ok logs =>
              .written (logs ++ [⟨now, prompt, execResponse⟩]) execResponse

/-- The response handling of `queryGPT` (go-chat.go:487-508): decode the
body as one JSON value into `map[string]interface{}`, then extract
`choices[0].message.content`; any deviation is fatal (`log.Fatalf`, or the
panic of the unchecked type assertion on `choices[0]`). -/
def queryGPTDecode (body : String) : Except Unit String :=
  match jsonDecodeFirst body with
  | none => Except.error ()
  | some v =>
    match v with
    | .obj topFields =>
      match objGet topFields "choices" with
      | some (.arr (c0 :: _)) =>
        match c0 with
        | .obj c0Fields =>
          match objGet c0Fields "message" with
          | some (.obj msgFields) =>
            match objGet msgFields "content" with
            | some (.str contentText) => Except.ok contentText
            | _ => Except.error ()
          | _ => Except.error ()
        | _ => Except.error ()
      | _ => Except.error ()
    | _ => Except.error ()

/-- Is `pat` a leading block of `s`? -/
def listLeads : List Char → List Char → Bool
  | [], _ => true
  | _ :: _, [] => false
  | p :: ps, c :: cs => p == c && listLeads ps cs

/-- Does `pat` occur anywhere in `s`? -/
def listOccurs (pat : List Char) : List Char → Bool
  | [] => listLeads pat []
  | c :: cs => listLeads pat (c :: cs) || listOccurs pat cs

/-- Substring occurrence test used to state which texts appear inside which
request messages. -/
def strOccurs (pat s : String) : Bool :=
  listOccurs pat.toList s.toList

/-! ## Concrete inputs used by the theorems below -/

/-- Log directory in which only the file of day `0` exists, holding one
parsable turn; used against day `1`, for which day `0` is the previous
calendar day. -/
def fsYesterdayOnly : Int → Option String := fun d =>
  if d = 0 then
    some "[\x7b\"timestamp\":\"2024-01-01T09:00:00Z\",\"request\":\"oldq\",\"response\":\"olda\"\x7d]"
  else none

/-- Empty log directory. -/
def fsEmpty : Int → Option String := fun _ => none

/-- Log directory whose only (and unparsable) file is at least two days
old. -/
def fsOldJunk : Int → Option String := fun d =>
  if d ≤ -2 then some "not json" else none

/-- Log directory whose file for day `0` exists but is not parsable JSON. -/
def fsCorruptToday : Int → Option String := fun d =>
  if d = 0 then some "not json" else none

/-- The spec's streaming example: the fragments `"Hel"`, `"lo, "`,
`"world"` framed as `data:` lines terminated by the `data: [DONE]`
sentinel. -/
def sseBody : String :=
  "data: \x7b\"choices\":[\x7b\"delta\":\x7b\"content\":\"Hel\"\x7d\x7d]\x7d\n" ++
    "data: \x7b\"choices\":[\x7b\"delta\":\x7b\"content\":\"lo, \"\x7d\x7d]\x7d\n" ++
    "data: \x7b\"choices\":[\x7b\"delta\":\x7b\"content\":\"world\"\x7d\x7d]\x7d\n" ++
    "data: [DONE]\n"

/-- A buffered (non-streaming) response body whose first choice's message
content is `"Hello, world"`. -/
def bufferedBody : String :=
  "\x7b\"choices\":[\x7b\"message\":\x7b\"content\":\"Hello, world\"\x7d\x7d]\x7d"

/-! ## Sanity checks of the embedding on concrete values -/

example : msgTokens ⟨"user", "a b"⟩ = 2 := by decide
example : msgTokens ⟨"user", ""⟩ = 1 := by decide
example : truncateChatHistory [⟨"user", "a b"⟩] 1 = [] := by decide
example : truncateChatHistory [⟨"u", "a b c"⟩, ⟨"u", "d e"⟩] 4 = [⟨"u", "d e"⟩] := by decide
example : jsonUnmarshal "[1, true]" = some (.arr [.num "1", .boolean true]) := rfl
example : jsonUnmarshal "not json" = none := rfl
example : jsonUnmarshal "" = none := rfl
example : jsonDecodeFirst "\x7b\"a\": \"b\"\x7d tail" = some (.obj [("a", .str "b")]) := rfl
example :
    parseChatLogs "[\x7b\"timestamp\":\"2024-01-01T00:00:00Z\",\"request\":\"q\",\"response\":\"a\"\x7d]" =
      some [⟨"2024-01-01T00:00:00Z", "q", "a"⟩] := by decide
example : parseChatLogs "not json" = none := by decide
example : strOccurs "lo w" "hello world" = true := by decide
example : strOccurs "xyzzy" "hello world" = false := by decide

/-! ## Theorems on the Context Assembler (C1, C2) -/

theorem histCost_cons (m : Msg) (l : List Msg) :
    histCost (m :: l) = msgTokens m + histCost l := by
  simp [histCost]

/-- The loop of `truncateChatHistory` adds at most the remaining budget
`maxTokens - total` on top of the cost already accumulated in `acc`. -/
theorem truncGo_cost_le (maxTokens : Int) :
    ∀ (rev : List Msg) (total : Int) (acc : List Msg), total ≤ maxTokens →
      histCost (truncGo maxTokens rev total acc) ≤ histCost acc + (maxTokens - total) := by
  intro rev
  induction rev with
  | nil =>
    intro total acc h
    simp only [truncGo]
    linarith
  | cons m rest ih =>
    intro total acc h
    simp only [truncGo]
    by_cases hc : total + msgTokens m > maxTokens
    · rw [if_pos hc]
      linarith
    · rw [if_neg hc]
      have hrec := ih (total + msgTokens m) (m :: acc) (by linarith)
      rw [histCost_cons] at hrec
      linarith

/-- The loop of `truncateChatHistory` returns some initial block of the
reversed input (i.e. some newest-first block), reversed back, in front of
the accumulator. -/
theorem truncGo_take (maxTokens : Int) :
    ∀ (rev : List Msg) (total : Int) (acc : List Msg),
      ∃ k, truncGo maxTokens rev total acc = (rev.take k).reverse ++ acc := by
  intro rev
  induction rev with
  | nil =>
    intro total acc
    exact ⟨0, by simp [truncGo]⟩
  | cons m rest ih =>
    intro total acc
    simp only [truncGo]
    by_cases hc : total + msgTokens m > maxTokens
    · rw [if_pos hc]
      exact ⟨0, by simp⟩
    · rw [if_neg hc]
      obtain ⟨k, hk⟩ := ih (total + msgTokens m) (m :: acc)
      refine ⟨k + 1, ?_⟩
      rw [hk]
      simp [List.take_succ_cons]

/-- C1 (amended): for every history and every non-negative limit, the
cumulative per-message cost of the output of `truncateChatHistory` is at
most the limit — without exception.  (The claimed edge case does not exist
in the code: a most-recent message that alone exceeds the limit is dropped
like any other, see `truncateChatHistory_oversize_dropped`, so the result
never exceeds the limit.) -/
theorem truncateChatHistory_cost_le (chatHistory : List Msg) (maxTokens : Int)
    (h : 0 ≤ maxTokens) :
    histCost (truncateChatHistory chatHistory maxTokens) ≤ maxTokens := by
  have hmain := truncGo_cost_le maxTokens chatHistory.reverse 0 [] h
  simp only [truncateChatHistory]
  simpa [histCost] using hmain

/-- Witness for `truncateChatHistory_cost_le` at a concrete input. -/
theorem truncateChatHistory_cost_le_witness :
    (0 : Int) ≤ 3 ∧
      histCost (truncateChatHistory [⟨"user", "a b"⟩, ⟨"assistant", "c d e"⟩] 3) ≤ 3 :=
  ⟨by decide, truncateChatHistory_cost_le [⟨"user", "a b"⟩, ⟨"assistant", "c d e"⟩] 3 (by decide)⟩

/-- C1 counterexample: with history `[⟨user, "a b"⟩]` and limit `1`, the
most recent message alone costs `2 > 1`, yet — contrary to the claim that
this one "un-droppable" message is still kept and the result may exceed the
limit — `truncateChatHistory` drops it and returns the empty history. -/
theorem truncateChatHistory_oversize_dropped :
    msgTokens ⟨"user", "a b"⟩ > 1 ∧
      truncateChatHistory [⟨"user", "a b"⟩] 1 = [] ∧
      ⟨"user", "a b"⟩ ∉ truncateChatHistory [⟨"user", "a b"⟩] 1 := by
  decide

/-- C2: `truncateChatHistory` returns a contiguous suffix of its input:
there is a (dropped, older) front part `t` with `t ++ result = input`, so
kept messages appear in original order and every dropped message is older
than every kept one. -/
theorem truncateChatHistory_suffix (chatHistory : List Msg) (maxTokens : Int) :
    ∃ t, t ++ truncateChatHistory chatHistory maxTokens = chatHistory := by
  obtain ⟨k, hk⟩ := truncGo_take maxTokens chatHistory.reverse 0 []
  refine ⟨(chatHistory.reverse.drop k).reverse, ?_⟩
  rw [truncateChatHistory, hk]
  calc (chatHistory.reverse.drop k).reverse ++ ((chatHistory.reverse.take k).reverse ++ [])
      = (chatHistory.reverse.take k ++ chatHistory.reverse.drop k).reverse := by
        rw [List.reverse_append]; simp
    _ = chatHistory.reverse.reverse := by rw [List.take_append_drop]
    _ = chatHistory := List.reverse_reverse chatHistory

/-! ## Theorems on the history source and persisted state (C5, C6, C9, C10) -/

/-- C5 counterexample: with today = day `1` and a log directory whose only
file is yesterday's (day `0`, holding the turn `oldq`/`olda`), the history
handed to the Context Assembler does contain that previous-day turn —
`getChatHistory` reads the last TWO days' files, not only the current
day's. -/
theorem history_includes_previous_day :
    fsYesterdayOnly 1 = none ∧
      getChatHistoryE 1 fsYesterdayOnly =
        Except.ok [⟨"user", "oldq"⟩, ⟨"assistant", "olda"⟩] := by
  exact ⟨rfl, rfl⟩

/-- C5 (amended): the history of a turn is read from the current day's and
the previous day's conversation logs, and from nothing else: the result of
`getChatHistory` depends only on those two files, so no turn recorded
before the previous calendar day can appear. -/
theorem getChatHistory_two_days_frame (today : Int) (fs fs2 : Int → Option String)
    (h0 : fs today = fs2 today) (h1 : fs (today - 1) = fs2 (today - 1)) :
    getChatHistoryE today fs = getChatHistoryE today fs2 := by
  simp only [getChatHistoryE, getLastTwoDaysLogFiles, readLogsFiles, readLogsFile, h0, h1]

/-- Witness for `getChatHistory_two_days_frame`: an empty directory and one
whose only file is an unparsable log at least two days old agree on days
`1` and `0`, hence produce the same history for today = `1`. -/
theorem getChatHistory_two_days_frame_witness :
    fsEmpty 1 = fsOldJunk 1 ∧ fsEmpty (1 - 1) = fsOldJunk (1 - 1) ∧
      getChatHistoryE 1 fsEmpty = getChatHistoryE 1 fsOldJunk :=
  ⟨by decide, by decide,
    getChatHistory_two_days_frame 1 fsEmpty fsOldJunk (by decide) (by decide)⟩

/-- C6 counterexample: when today's log file holds the unparsable contents
`"not json"`, `getChatHistory` does NOT treat it as an empty collection
with a warning — it calls `log.Fatalf`, i.e. the process crashes
(`Except.error ()` in this embedding). -/
theorem corrupt_log_crashes :
    getChatHistoryE 0 fsCorruptToday = Except.error () ∧
      getChatHistoryE 0 fsCorruptToday ≠ Except.ok [] := by
  have h : getChatHistoryE 0 fsCorruptToday = Except.error () := rfl
  refine ⟨h, ?_⟩
  rw [h]
  exact fun hc => Except.noConfusion hc

/-- C6 (amended): a persisted log file whose non-empty contents are not
parsable as the expected JSON array terminates the process via
`log.Fatalf`; only a missing or empty file is treated as an empty
collection. -/
theorem corrupt_log_fatal (today : Int) (fs : Int → Option String) (s : String)
    (hfile : fs today = some s) (hne : s ≠ "") (hbad : parseChatLogs s = none) :
    getChatHistoryE today fs = Except.error () := by
  simp only [getChatHistoryE, getLastTwoDaysLogFiles, readLogsFiles, readLogsFile,
    hfile, if_neg hne, hbad]
  rfl

/-- Witness for `corrupt_log_fatal` at the concrete corrupt directory. -/
theorem corrupt_log_fatal_witness :
    fsCorruptToday 0 = some "not json" ∧ "not json" ≠ "" ∧
      parseChatLogs "not json" = none ∧
      getChatHistoryE 0 fsCorruptToday = Except.error () :=
  ⟨rfl, by decide, by decide,
    corrupt_log_fatal 0 fsCorruptToday "not json" rfl (by decide) (by decide)⟩

/-- C9: `updateConfig` overwrites each of `UserName`, `AIName` and `Bio`
exactly when the corresponding argument is non-empty, leaves it unchanged
when the argument is the empty string, and never touches `Personality`. -/
theorem updateConfig_fields (c : Config) (u a b : String) :
    (updateConfigPure c u a b).UserName = (if u = "" then c.UserName else u) ∧
      (updateConfigPure c u a b).AIName = (if a = "" then c.AIName else a) ∧
      (updateConfigPure c u a b).Bio = (if b = "" then c.Bio else b) ∧
      (updateConfigPure c u a b).Personality = c.Personality := by
  unfold updateConfigPure
  by_cases hu : u = "" <;> by_cases ha : a = "" <;> by_cases hb : b = "" <;>
    simp [hu, ha, hb]

/-- C10: when the state file does not exist, `getState` returns the default
state — `CheckInEnabled` true and a zero `LastInteraction` — and persists
that same default via `saveState`, so check-in is enabled by default on
first run. -/
theorem getState_default_on_missing :
    getStateRun none = Except.ok (⟨timeZero, true⟩, some ⟨timeZero, true⟩) ∧
      (State.mk timeZero true).CheckInEnabled = true ∧
      (State.mk timeZero true).LastInteraction = timeZero :=
  ⟨rfl, rfl, rfl⟩

/-! ## Theorems on the fusion pipeline and completion client (C3, C4, C7, C8) -/

/-- C3 counterexample: in a fusion turn whose summarizer digest is `"S"`
and whose raw user prompt is `"xyzzy"`, the creative Analyze call runs at
temperature `1`, not `~0.9`, and neither Analyze call's input contains the
raw user prompt anywhere — the prompt is not part of the Analyze context. -/
theorem analyze_cex :
    (rightBrainReq "S").temperature = 1 ∧ (1 : ℚ) ≠ 0.9 ∧
      ((leftBrainReq "S").messages.all fun m => !strOccurs "xyzzy" m.content) = true ∧
      ((rightBrainReq "S").messages.all fun m => !strOccurs "xyzzy" m.content) = true := by
  refine ⟨by norm_num [rightBrainReq, queryGPTReq], by norm_num, by decide, by decide⟩

/-- C3 (amended): each Analyze call's context is exactly one system message
holding the digest behind the label `"Summary of chat so far: "`, plus its
own instruction as the final system message — the raw user prompt and the
full history are not included — with the logical call at temperature `0.2`
and the creative call at temperature `1.0`. -/
theorem analyze_digest_only (digest : String) :
    leftBrainReq digest =
      ⟨0.2, 512, [⟨"system", "Summary of chat so far: " ++ digest⟩,
        ⟨"system", "Answer the prompt logically"⟩]⟩ ∧
      rightBrainReq digest =
        ⟨1, 512, [⟨"system", "Summary of chat so far: " ++ digest⟩,
          ⟨"system", "Answer the prompt creatively"⟩]⟩ := by
  refine ⟨rfl, ?_⟩
  simp only [rightBrainReq, queryGPTReq, GPTRequest.mk.injEq]
  refine ⟨by norm_num, by norm_num, by simp⟩

/-- C4: for all values `S`, `L`, `C` returned by the summarize, logical and
creative calls, the synthesize call's input carries `S`, `L` and `C` in
three separate system messages behind three pairwise distinct labels
(followed by the combine instruction), so each sits in its own delimited,
non-overlapping slot. -/
theorem synthesize_distinct_delims (prompt S L C : String) :
    (execReq prompt S L C).messages =
      [⟨"system", "Summary of chat so far: " ++ S⟩,
       ⟨"system", "This is what you left brain says: \n" ++ L⟩,
       ⟨"system", "This is what your right brain says: \n" ++ C⟩,
       ⟨"system",
         "Take both of these answers and combine them into an answer that is both logical and creative"
           ++ prompt⟩] ∧
      ("Summary of chat so far: " : String) ≠ "This is what you left brain says: \n" ∧
      ("Summary of chat so far: " : String) ≠ "This is what your right brain says: \n" ∧
      ("This is what you left brain says: \n" : String) ≠
        "This is what your right brain says: \n" := by
  refine ⟨?_, by decide, by decide, by decide⟩
  simp [execReq, queryGPTReq]

/-- C7: a `sendChat` turn either aborts with no log write at all
(`log.Fatalf`, before the log file is touched), or every one of the four
completion calls succeeded and exactly one entry — the new turn — is
appended to today's previously persisted entries.  A failing completion
call can therefore never leave a partial or modified log. -/
theorem sendChat_no_partial_log (oracle : Oracle) (fs : Int → Option String)
    (today : Int) (prompt now : String) :
    sendChatRun oracle fs today prompt now = .fatal ∨
      ∃ hist0 digest leftR rightR execR logs,
        getChatHistoryE today fs = Except.ok hist0 ∧
        oracle (summarizeReq (truncateChatHistory hist0 1000 ++ [⟨"user", prompt⟩])) =
          Except.ok digest ∧
        oracle (leftBrainReq digest) = Except.ok leftR ∧
        oracle (rightBrainReq digest) = Except.ok rightR ∧
        oracle (execReq prompt digest leftR rightR) = Except.ok execR ∧
        readLogsFile fs (getLogFilePath today) = Except.ok logs ∧
        sendChatRun oracle fs today prompt now =
          .written (logs ++ [⟨now, prompt, execR⟩]) execR := by
  cases h0 : getChatHistoryE today fs with
  | error e => exact Or.inl (by simp [sendChatRun, h0])
  | ok hist0 =>
    cases h1 : oracle (summarizeReq (truncateChatHistory hist0 1000 ++ [⟨"user", prompt⟩])) with
    | error e => exact Or.inl (by simp [sendChatRun, h0, h1])
    | ok digest =>
      cases h2 : oracle (leftBrainReq digest) with
      | error e => exact Or.inl (by simp [sendChatRun, h0, h1, h2])
      | ok leftR =>
        cases h3 : oracle (rightBrainReq digest) with
        | error e => exact Or.inl (by simp [sendChatRun, h0, h1, h2, h3])
        | ok rightR =>
          cases h4 : oracle (execReq prompt digest leftR rightR) with
          | error e => exact Or.inl (by simp [sendChatRun, h0, h1, h2, h3, h4])
          | ok execR =>
            cases h5 : readLogsFile fs (getLogFilePath today) with
            | error e => exact Or.inl (by simp [sendChatRun, h0, h1, h2, h3, h4, h5])
            | ok logs =>
              exact Or.inr ⟨hist0, digest, leftR, rightR, execR, logs, rfl, h1, h2, h3, h4, rfl,
                by simp [sendChatRun, h0, h1, h2, h3, h4, h5]⟩

/-- C8 counterexample: `queryGPT` has no streaming mode — fed the
fragment sequence `["Hel","lo, ","world"]` framed as data-lines terminated
by the DONE sentinel, its response handling fails to decode the body
(`log.Fatalf`) instead of returning the concatenation `"Hello, world"`. -/
theorem sse_body_not_reassembled :
    queryGPTDecode sseBody = Except.error () ∧
      queryGPTDecode sseBody ≠ Except.ok "Hello, world" := by
  set_option maxRecDepth 10000 in
  have h : queryGPTDecode sseBody = Except.error () := rfl
  refine ⟨h, ?_⟩
  rw [h]
  exact fun hc => Except.noConfusion hc

/-- C8 (amended): the completion client is buffered-only: it returns
`choices[0].message.content` of a single JSON response body, and an
SSE-framed streaming body is a fatal decode error rather than being
reassembled. -/
theorem queryGPT_buffered_decode :
    queryGPTDecode bufferedBody = Except.ok "Hello, world" ∧
      queryGPTDecode sseBody = Except.error () := by
  set_option maxRecDepth 10000 in
  exact ⟨rfl, rfl⟩
